import Mathlib

/-!
Verification of the gesture-to-force translation and projectile physics core
of the magic-hands repository (`src/unnamed/part_000`, a SolidJS component).

Numbers are modelled exactly: JavaScript float arithmetic is rendered over `ℚ`
(and over `ℝ` where the source calls transcendental functions `Math.cos`,
`Math.sin`, `Math.sqrt`).  Decimal literals of the source are written as the
same rationals (`0.016 = 16/1000`, `0.8 = 8/10`, ...).  Module-level mutable
state (the canvas element, `window.devicePixelRatio`, `Date.now()`,
`Math.random()`) is passed explicitly as parameters.
-/

namespace MagicHands

/-- A 2-D point in recognizer/normalized space (`Coords2D` of `math-utils`);
only `x` and `y` of a landmark are consumed by the core. -/
structure Coords2D where
  x : ℚ
  y : ℚ
deriving DecidableEq, Repr

/-- A point in page-pixel space (`{pageX, pageY}` objects of the source). -/
structure PageCoords where
  pageX : ℚ
  pageY : ℚ
deriving DecidableEq, Repr

/-- The fluid canvas size in device pixels (`fluidCanvasElement.width/height`). -/
structure CanvasSize where
  width : ℚ
  height : ℚ
deriving DecidableEq, Repr

/-- An `{r, g, b}` color object of the source. -/
structure Color where
  r : ℚ
  g : ℚ
  b : ℚ
deriving DecidableEq, Repr

/-- `interface HandVelocity { x; y; timestamp }` (source lines 108–112).
The timestamp is `Date.now()` in milliseconds. -/
structure HandVelocity where
  x : ℚ
  y : ℚ
  timestamp : ℚ
deriving DecidableEq, Repr

/-- `const VELOCITY_HISTORY_SIZE = 5` (source line 116). -/
def VELOCITY_HISTORY_SIZE : ℕ := 5

/-- `const THROW_VELOCITY_THRESHOLD = 8` (source line 117). -/
def THROW_VELOCITY_THRESHOLD : ℚ := 8

/-- The loop `while (l.length > cap) l.shift()` used by
`updateHandVelocityHistory` (cap 5, lines 138–140) and `throwMagicBall`
(cap 10, lines 202–204): repeatedly remove the FRONT element while the
length exceeds the cap. -/
def shiftWhile (cap : ℕ) (l : List α) : List α :=
  if cap < l.length then shiftWhile cap l.tail else l
termination_by l.length
decreasing_by
  simp only [List.length_tail]
  omega

/-- The inline page-to-simulation conversion of the source
(`updateHandVelocityHistory` lines 128–129, also repeated in
`throwMagicBall`, `createBothHandsGlowEffect`, `createBothPointingRaysToCenter`,
`createWigglyBall`, `createFingerRay`):
`x = pageX·dpr/width`, `y = 1 − pageY·dpr/height`.  `dpr` is
`window.devicePixelRatio`. -/
def toNormalized (canvas : CanvasSize) (dpr : ℚ) (coords : PageCoords) : Coords2D :=
  ⟨coords.pageX * dpr / canvas.width, 1 - coords.pageY * dpr / canvas.height⟩

/-- `updateHandVelocityHistory` (source lines 119–141): push a freshly
timestamped normalized sample, then drop from the front while the length
exceeds `VELOCITY_HISTORY_SIZE`.  `now` stands for `Date.now()`. -/
def updateHandVelocityHistory (canvas : CanvasSize) (dpr : ℚ) (now : ℚ)
    (history : List HandVelocity) (coords : PageCoords) : List HandVelocity :=
  let n := toNormalized canvas dpr coords
  shiftWhile VELOCITY_HISTORY_SIZE (history ++ [⟨n.x, n.y, now⟩])

/-! ### Velocity tracker: throw detection -/

/-- One iteration of the `detectThrowingMotion` loop (source lines 151–161):
for a consecutive pair of samples, if the time delta (converted to seconds)
lies strictly between 0 and 0.1, produce the pair velocity `Δposition/Δt`,
otherwise contribute nothing. -/
def pairVelocity (p q : HandVelocity) : Option (ℚ × ℚ) :=
  let dt := (q.timestamp - p.timestamp) / 1000
  if 0 < dt ∧ dt < 1/10 then
    some ((q.x - p.x) / dt, (q.y - p.y) / dt)
  else none

/-- The valid pair velocities accumulated by the loop of
`detectThrowingMotion` over indices `i = 1 .. history.length - 1`
(pairs `history[i-1], history[i]`). -/
def pairVelocities (h : List HandVelocity) : List (ℚ × ℚ) :=
  (h.zip h.tail).filterMap fun pq => pairVelocity pq.1 pq.2

/-- `avgVx` after the division by `validSamples` (source line 165). -/
def avgVx (h : List HandVelocity) : ℚ :=
  ((pairVelocities h).map Prod.fst).sum / (pairVelocities h).length

/-- `avgVy` after the division by `validSamples` (source line 166). -/
def avgVy (h : List HandVelocity) : ℚ :=
  ((pairVelocities h).map Prod.snd).sum / (pairVelocities h).length

/-- `detectThrowingMotion` (source lines 143–175).  The source computes
`speed = Math.sqrt(avgVx² + avgVy²)` and tests `speed > THROW_VELOCITY_THRESHOLD`;
since both sides are nonnegative this is equivalent to the exact rational test
`avgVx² + avgVy² > THROW_VELOCITY_THRESHOLD²`, which is how the comparison is
rendered here (the bridge to `Real.sqrt` is proved in the theorems below). -/
def detectThrowingMotion (h : List HandVelocity) : Option (ℚ × ℚ) :=
  if h.length < 3 then none
  else if (pairVelocities h).length = 0 then none
  else if THROW_VELOCITY_THRESHOLD ^ 2 < avgVx h ^ 2 + avgVy h ^ 2 then
    some (avgVx h, avgVy h)
  else none

/-! ### Projectile ("magic ball") engine -/

/-- `class MagicBall` fields (source lines 41–60).  `life` is an integer
number of remaining frames (decremented by 1 each tick). -/
structure MagicBall where
  x : ℚ
  y : ℚ
  vx : ℚ
  vy : ℚ
  color : Color
  life : ℤ
  maxLife : ℤ
  radius : ℚ
deriving DecidableEq, Repr

/-- The `MagicBall` constructor (source lines 51–60):
`maxLife = 120`, `life = maxLife`, `radius = 0.03`. -/
def mkMagicBall (x y vx vy : ℚ) (color : Color) : MagicBall :=
  ⟨x, y, vx, vy, color, 120, 120, 3/100⟩

/-- `MagicBall.update` (source lines 62–78): integrate position with the
fixed factor `0.016 = 16/1000` (the source's `// 60fps approximation`),
execute `vy += 0.5` (the source's `// gravity` line), bounce horizontally
(`vx *= -0.8` and clamp `x` to `[0,1]`) when the integrated `x` leaves
`[0,1]`, decrement `life`, and return the updated ball together with the
boolean `life > 0` that the source returns. -/
def MagicBall.update (b : MagicBall) : MagicBall × Bool :=
  let x1 := b.x + b.vx * (16/1000)
  let y1 := b.y + b.vy * (16/1000)
  let vy1 := b.vy + 1/2
  let bounced := x1 < 0 ∨ 1 < x1
  let vx1 := if bounced then b.vx * (-8/10) else b.vx
  let x2 := if bounced then max 0 (min 1 x1) else x1
  let life1 := b.life - 1
  (⟨x2, y1, vx1, vy1, b.color, life1, b.maxLife, b.radius⟩, decide (0 < life1))

/-- `throwMagicBall` (source lines 177–205): normalize the hand coordinates,
build a ball with the detected velocity and a randomized color (the three
`Math.random()` draws are passed in as `rnd1 rnd2 rnd3`; the drawn `hue` on
line 190 is unused by the source), push it, then drop from the front while
more than 10 balls are live. -/
def throwMagicBall (canvas : CanvasSize) (dpr : ℚ)
    (handCoords : PageCoords) (velocity : ℚ × ℚ) (rnd1 rnd2 rnd3 : ℚ)
    (magicBalls : List MagicBall) : List MagicBall :=
  let startX := handCoords.pageX * dpr / canvas.width
  let startY := 1 - handCoords.pageY * dpr / canvas.height
  let color : Color := ⟨3/10 + rnd1 * (7/10), 3/10 + rnd2 * (7/10), 3/10 + rnd3 * (7/10)⟩
  let ball := mkMagicBall startX startY velocity.1 velocity.2 color
  shiftWhile 10 (magicBalls ++ [ball])

/-- `updateMagicBalls` (source lines 207–218): every ball is advanced exactly
once; balls whose `update` returned `false` are spliced out, the others are
kept in order.  The source iterates backwards with `splice`, which visits
each index exactly once and preserves the relative order of survivors, so it
is rendered as this forward recursion. -/
def updateMagicBalls : List MagicBall → List MagicBall
  | [] => []
  | b :: rest =>
    let r := MagicBall.update b
    if r.2 then r.1 :: updateMagicBalls rest else updateMagicBalls rest

/-! ### Coordinate mapper -/

/-- `getPageCoords` (source lines 251–267): undefined input propagates as
`none`; otherwise `pageX = x·width/dpr`, `pageY = y·height/dpr`.  Note that
no Y flip is applied here. -/
def getPageCoords (canvas : CanvasSize) (dpr : ℚ) :
    Option Coords2D → Option PageCoords
  | none => none
  | some c => some ⟨c.x * canvas.width / dpr, c.y * canvas.height / dpr⟩

/-! ### Impulse ("splat") commands -/

/-- A splat color; components are reals because the finger-ray generator
mixes in `Math.random()` draws. -/
structure SplatColor where
  r : ℝ
  g : ℝ
  b : ℝ

/-- One `fluidSimulation.createSplat?.(x, y, dx, dy, color)` command. -/
structure Splat where
  x : ℝ
  y : ℝ
  dx : ℝ
  dy : ℝ
  color : SplatColor

/-- The ring point abscissa attempted by `MagicBall.createFluidEffect` for
loop index `i` : `this.x + Math.cos((i/3)·2π) · 0.01` (source lines 90–94). -/
noncomputable def trailPointX (b : MagicBall) (i : ℕ) : ℝ :=
  (b.x : ℝ) + Real.cos (((i : ℝ) / 3) * Real.pi * 2) * (1/100)

/-- The ring point ordinate attempted by `MagicBall.createFluidEffect` for
loop index `i` : `this.y + Math.sin((i/3)·2π) · 0.01` (source lines 90–95). -/
noncomputable def trailPointY (b : MagicBall) (i : ℕ) : ℝ :=
  (b.y : ℝ) + Real.sin (((i : ℝ) / 3) * Real.pi * 2) * (1/100)

/-- The trail color of `MagicBall.createFluidEffect` (source lines 81–86):
the ball's base color scaled by `opacity · 0.8` where
`opacity = life / maxLife`. -/
noncomputable def trailColor (b : MagicBall) : SplatColor :=
  ⟨((b.color.r * ((b.life : ℚ) / (b.maxLife : ℚ)) * (8/10) : ℚ) : ℝ),
   ((b.color.g * ((b.life : ℚ) / (b.maxLife : ℚ)) * (8/10) : ℚ) : ℝ),
   ((b.color.b * ((b.life : ℚ) / (b.maxLife : ℚ)) * (8/10) : ℚ) : ℝ)⟩

/-- The splat emitted by `MagicBall.createFluidEffect` for loop index `i`
when its point is in bounds: force `(vx·20, vy·20)`, color `trailColor`. -/
noncomputable def trailSplat (b : MagicBall) (i : ℕ) : Splat :=
  ⟨trailPointX b i, trailPointY b i, (b.vx : ℝ) * 20, (b.vy : ℝ) * 20, trailColor b⟩

open Classical in
/-- `MagicBall.createFluidEffect` (source lines 80–103): for `i = 0, 1, 2`
attempt a trail splat at angle `(i/3)·2π` around the ball at radius `0.01`;
a splat whose point leaves `[0,1]×[0,1]` is skipped (the loop continues),
the others carry force `(vx·20, vy·20)` and the faded color. -/
noncomputable def MagicBall.createFluidEffect (b : MagicBall) : List Splat :=
  let opacity : ℚ := (b.life : ℚ) / (b.maxLife : ℚ)
  let effectColor : SplatColor :=
    ⟨((b.color.r * opacity * (8/10) : ℚ) : ℝ),
     ((b.color.g * opacity * (8/10) : ℚ) : ℝ),
     ((b.color.b * opacity * (8/10) : ℚ) : ℝ)⟩
  (List.range 3).filterMap fun i =>
    let angle : ℝ := ((i : ℝ) / 3) * Real.pi * 2
    let offsetX := Real.cos angle * (1/100)
    let offsetY := Real.sin angle * (1/100)
    let x := (b.x : ℝ) + offsetX
    let y := (b.y : ℝ) + offsetY
    if 0 ≤ x ∧ x ≤ 1 ∧ 0 ≤ y ∧ y ≤ 1 then
      some ⟨x, y, (b.vx : ℝ) * 20, (b.vy : ℝ) * 20, effectColor⟩
    else none

/-! ### Finger-ray generator -/

/-- Modelled from the spec: `HAND_LABEL_INDEX.INDEX_FINGER_MCP` of
`utils/mediapipe-hands-constants` (not under src/); the spec's fixed
anatomical landmark schema (MediaPipe hand landmark index 5). -/
def INDEX_FINGER_MCP : ℕ := 5

/-- Modelled from the spec: `HAND_LABEL_INDEX.INDEX_FINGER_TIP` of
`utils/mediapipe-hands-constants` (not under src/); the spec's fixed
anatomical landmark schema (MediaPipe hand landmark index 8). -/
def INDEX_FINGER_TIP : ℕ := 8

/-- The remainder `a % b` of JavaScript on the nonnegative operands used by
the HSV conversion: `a − b·⌊a/b⌋`. -/
noncomputable def jsMod (a b : ℝ) : ℝ := a - b * ⌊a / b⌋

open Classical in
/-- The inline HSV→RGB conversion of `createFingerRay` (source lines
526–539). -/
noncomputable def hsvToRgb (hue saturation value : ℝ) : SplatColor :=
  let c := value * saturation
  let xcol := c * (1 - |jsMod (hue * 6) 2 - 1|)
  let m := value - c
  if hue < 1/6 then ⟨c + m, xcol + m, 0 + m⟩
  else if hue < 2/6 then ⟨xcol + m, c + m, 0 + m⟩
  else if hue < 3/6 then ⟨0 + m, c + m, xcol + m⟩
  else if hue < 4/6 then ⟨0 + m, xcol + m, c + m⟩
  else if hue < 5/6 then ⟨xcol + m, 0 + m, c + m⟩
  else ⟨c + m, 0 + m, xcol + m⟩

open Classical in
/-- The `for (let i = 1; i <= numRayPoints; i++)` loop of `createFingerRay`
(source lines 501–542): the out-of-bounds test `x < 0 || x > 1 || y < 0 || y > 1`
executes `break`, stopping the remaining iterations. -/
noncomputable def rayLoop (pt : ℕ → ℝ × ℝ) (emit : ℕ → ℝ → ℝ → Splat) :
    List ℕ → List Splat
  | [] => []
  | i :: rest =>
    let p := pt i
    if p.1 < 0 ∨ 1 < p.1 ∨ p.2 < 0 ∨ 1 < p.2 then []
    else emit i p.1 p.2 :: rayLoop pt emit rest

open Classical in
/-- `createFingerRay` (source lines 460–543).  `time` stands for
`Date.now() * 0.001`; `rand i` supplies the three `Math.random()` draws
(hue, saturation draw, value draw) of loop iteration `i`.  Missing
landmarks return the empty splat list, as does a zero-length direction
vector (the `if (length === 0) return;` guard, reached BEFORE any
normalization). -/
noncomputable def createFingerRay (canvas : CanvasSize) (dpr : ℚ) (time : ℝ)
    (rand : ℕ → ℝ × ℝ × ℝ) (landmarks : List Coords2D) : List Splat :=
  match landmarks[INDEX_FINGER_TIP]?, landmarks[INDEX_FINGER_MCP]? with
  | some fingerTip, some fingerMCP =>
    match getPageCoords canvas dpr (some fingerTip),
          getPageCoords canvas dpr (some fingerMCP) with
    | some tipPageCoords, some mcpPageCoords =>
      let directionX : ℝ := ((tipPageCoords.pageX - mcpPageCoords.pageX : ℚ) : ℝ)
      let directionY : ℝ := ((tipPageCoords.pageY - mcpPageCoords.pageY : ℚ) : ℝ)
      let len := Real.sqrt (directionX ^ 2 + directionY ^ 2)
      if len = 0 then []
      else
        let normalizedDirX := directionX / len
        let normalizedDirY := directionY / len
        let startX : ℝ := ((tipPageCoords.pageX * dpr / canvas.width : ℚ) : ℝ)
        let startY : ℝ := 1 - ((tipPageCoords.pageY * dpr / canvas.height : ℚ) : ℝ)
        rayLoop
          (fun i =>
            let t : ℝ := (i : ℝ) / 2
            let distance := (2/10) * t
            let jiggleAmount := Real.sin (time + (i : ℝ)) * (5/1000)
            let perpX := -normalizedDirY
            let perpY := normalizedDirX
            (startX + normalizedDirX * distance * (dpr : ℝ) / (canvas.width : ℝ) +
               perpX * jiggleAmount,
             startY - normalizedDirY * distance * (dpr : ℝ) / (canvas.height : ℝ) +
               perpY * jiggleAmount))
          (fun i x y =>
            let dx := normalizedDirX * 20
            let dy := -normalizedDirY * 20
            let hue := (rand i).1
            let saturation := (6/10) + (rand i).2.1 * (4/10)
            let value := (3/10) + (rand i).2.2 * (2/10)
            ⟨x, y, dx, dy, hsvToRgb hue saturation value⟩)
          [1, 2]
    | _, _ => []
  | _, _ => []

/-! ### Effect dispatcher fragments (`processResults`) -/

/-- JavaScript truthiness of `coords?.pageX && coords?.pageY` as used by the
dispatch conditions of `processResults` (lines 643–662): the coordinates
must exist AND both components must be nonzero (a zero coordinate is falsy). -/
def coordsTruthy : Option PageCoords → Bool
  | none => false
  | some c => decide (c.pageX ≠ 0) && decide (c.pageY ≠ 0)

/-- Which ray generators `processResults` invokes this frame. -/
structure RayCalls where
  dual : Bool
  leftSingle : Bool
  rightSingle : Bool
deriving DecidableEq, Repr

/-- The pointing-gesture dispatch of `processResults` (source lines 650–662):
if both hands' pointing coordinates are truthy, invoke only
`createBothPointingRaysToCenter`; otherwise invoke `createFingerRay` for every
hand whose pointing coordinates are truthy and whose landmarks are present. -/
def dispatchPointing (leftPointingCoords rightPointingCoords : Option PageCoords)
    (leftLandmarks rightLandmarks : Bool) : RayCalls :=
  if coordsTruthy leftPointingCoords && coordsTruthy rightPointingCoords then
    ⟨true, false, false⟩
  else
    ⟨false, coordsTruthy leftPointingCoords && leftLandmarks,
      coordsTruthy rightPointingCoords && rightLandmarks⟩

/-! ### Touch synthesis -/

/-- A synthetic touch point as built by `getTouch` (source lines 231–249). -/
structure Touch where
  identifier : ℤ
  pageX : ℚ
  pageY : ℚ
  screenX : ℚ
  screenY : ℚ
  clientX : ℚ
  clientY : ℚ
deriving DecidableEq, Repr

/-- `getTouch` (source lines 231–249). -/
def getTouch (pageX pageY : ℚ) (identifier : ℤ) : Touch :=
  ⟨identifier, pageX, pageY, pageX, pageY, pageX, pageY⟩

/-- The `type` field of a synthesized touch event. -/
inductive TouchType
  | touchstart
  | touchmove
  | touchend
deriving DecidableEq, Repr

/-- A synthesized touch event. -/
structure TouchEvt where
  type : TouchType
  touches : List Touch
deriving DecidableEq, Repr

/-- Modelled from the spec: `createTouchEvent` (utils/touch-utils, not under
src/) builds a synthetic touch event of the given `type` carrying the given
ordered touch list (§6: each `event` carries an ordered sequence of touch
points). -/
def createTouchEvent (type : TouchType) (touches : List Touch) : TouchEvt :=
  ⟨type, touches⟩

/-- `getEvent` (source lines 269–285).  `previousTouches` is the module-level
binding, `none` before its first initialization (`if (!previousTouches)
previousTouches = []`).  The source condition
`previousTouches.length && previousTouches.length >= touches.length` is
truthy iff the previous list is nonempty and at least as long as the current
one. -/
def getEvent (previousTouches : Option (List Touch)) (touches : List Touch) :
    TouchEvt :=
  let prev := previousTouches.getD []
  if prev.length ≠ 0 ∧ touches.length ≤ prev.length then
    createTouchEvent TouchType.touchmove touches
  else
    createTouchEvent TouchType.touchstart touches

/-- Which of the force-field surface's touch-ingestion functions is called. -/
inductive TouchSend
  | sendStart
  | sendMove
  | sendEnd
deriving DecidableEq, Repr

/-- The touch branch of `processResults` (source lines 664–677):
when the both-palms glow superseded touch handling, or no touches were
synthesized this frame, nothing is sent; otherwise the event from `getEvent`
is dispatched on its `type` to `sendTouchStart`/`sendTouchMove`/`sendTouchEnd`. -/
def touchDispatch (bothPalmsGlow : Bool) (previousTouches : Option (List Touch))
    (touches : List Touch) : Option TouchSend :=
  if bothPalmsGlow then none
  else if 0 < touches.length then
    match (getEvent previousTouches touches).type with
    | TouchType.touchstart => some TouchSend.sendStart
    | TouchType.touchmove => some TouchSend.sendMove
    | TouchType.touchend => some TouchSend.sendEnd
  else none

/-! ### Helper lemmas -/

/-- The shift-while-over-capacity loop drops exactly the oldest surplus
elements from the front. -/
theorem shiftWhile_eq_drop (cap : ℕ) (l : List α) :
    shiftWhile cap l = l.drop (l.length - cap) := by
  induction l with
  | nil => rw [shiftWhile]; simp
  | cons a t ih =>
    rw [shiftWhile]
    by_cases h : cap < (a :: t).length
    · rw [if_pos h, List.tail_cons, ih]
      have hc : (a :: t).length - cap = (t.length - cap) + 1 := by
        simp only [List.length_cons] at h ⊢
        omega
      rw [hc, List.drop_succ_cons]
    · rw [if_neg h]
      have hc : (a :: t).length - cap = 0 := by
        simp only [List.length_cons] at h ⊢
        omega
      rw [hc, List.drop_zero]

/-- The length after the shift-while loop is at most the cap or unchanged. -/
theorem shiftWhile_length_le (cap : ℕ) (l : List α) :
    (shiftWhile cap l).length ≤ cap ∨ shiftWhile cap l = l := by
  rw [shiftWhile_eq_drop]
  by_cases h : l.length ≤ cap
  · right
    have : l.length - cap = 0 := by omega
    rw [this, List.drop_zero]
  · left
    rw [List.length_drop]
    omega

/-! ### C1 -/

/-- C1: for every hand velocity history and every `updateHandVelocityHistory`
call, the resulting history has length at most 5, and the result is exactly
the pushed list with its oldest surplus samples dropped from the front
(FIFO eviction). -/
theorem C1_history_capped_fifo (canvas : CanvasSize) (dpr now : ℚ)
    (history : List HandVelocity) (coords : PageCoords) :
    (updateHandVelocityHistory canvas dpr now history coords).length ≤ 5 ∧
    updateHandVelocityHistory canvas dpr now history coords =
      (history ++ [(⟨(toNormalized canvas dpr coords).x,
                     (toNormalized canvas dpr coords).y, now⟩ : HandVelocity)]).drop
        (history.length + 1 - 5) := by
  have he : updateHandVelocityHistory canvas dpr now history coords =
      shiftWhile VELOCITY_HISTORY_SIZE
        (history ++ [(⟨(toNormalized canvas dpr coords).x,
                       (toNormalized canvas dpr coords).y, now⟩ : HandVelocity)]) := rfl
  rw [he, shiftWhile_eq_drop]
  constructor
  · rw [List.length_drop]
    simp only [List.length_append, List.length_cons, List.length_nil,
      VELOCITY_HISTORY_SIZE]
    omega
  · simp only [List.length_append, List.length_cons, List.length_nil,
      VELOCITY_HISTORY_SIZE]

/-! ### C2 -/

/-- C2: every `throwMagicBall` call leaves at most 10 live projectiles; the
result is exactly the pushed list with its oldest surplus balls dropped from
the front (FIFO eviction of the first-inserted), and the newly thrown ball
is always retained. -/
theorem C2_projectiles_capped_fifo (canvas : CanvasSize) (dpr : ℚ)
    (handCoords : PageCoords) (velocity : ℚ × ℚ) (rnd1 rnd2 rnd3 : ℚ)
    (magicBalls : List MagicBall) :
    (throwMagicBall canvas dpr handCoords velocity rnd1 rnd2 rnd3 magicBalls).length ≤ 10 ∧
    throwMagicBall canvas dpr handCoords velocity rnd1 rnd2 rnd3 magicBalls =
      (magicBalls ++
        [mkMagicBall (handCoords.pageX * dpr / canvas.width)
          (1 - handCoords.pageY * dpr / canvas.height) velocity.1 velocity.2
          ⟨3/10 + rnd1 * (7/10), 3/10 + rnd2 * (7/10), 3/10 + rnd3 * (7/10)⟩]).drop
        (magicBalls.length + 1 - 10) ∧
    mkMagicBall (handCoords.pageX * dpr / canvas.width)
        (1 - handCoords.pageY * dpr / canvas.height) velocity.1 velocity.2
        ⟨3/10 + rnd1 * (7/10), 3/10 + rnd2 * (7/10), 3/10 + rnd3 * (7/10)⟩ ∈
      throwMagicBall canvas dpr handCoords velocity rnd1 rnd2 rnd3 magicBalls := by
  set ball := mkMagicBall (handCoords.pageX * dpr / canvas.width)
    (1 - handCoords.pageY * dpr / canvas.height) velocity.1 velocity.2
    ⟨3/10 + rnd1 * (7/10), 3/10 + rnd2 * (7/10), 3/10 + rnd3 * (7/10)⟩ with hball
  have he : throwMagicBall canvas dpr handCoords velocity rnd1 rnd2 rnd3 magicBalls =
      shiftWhile 10 (magicBalls ++ [ball]) := rfl
  rw [he, shiftWhile_eq_drop]
  refine ⟨?_, ?_, ?_⟩
  · rw [List.length_drop]
    simp only [List.length_append, List.length_cons, List.length_nil]
    omega
  · simp only [List.length_append, List.length_cons, List.length_nil]
  · have hk : (magicBalls ++ [ball]).length - 10 ≤ magicBalls.length := by
      simp only [List.length_append, List.length_cons, List.length_nil]
      omega
    rw [List.drop_append_of_le_length hk]
    exact List.mem_append_right _ (List.mem_singleton.mpr rfl)

/-! ### C3 -/

/-- Bridge between the source's float test `Math.sqrt(s) > 8` and the exact
rational test `s > 64`. -/
theorem eight_lt_sqrt_iff (q : ℚ) : (8 : ℝ) < Real.sqrt (q : ℝ) ↔ 64 < q := by
  rw [Real.lt_sqrt (by norm_num : (0 : ℝ) ≤ 8)]
  rw [show ((8 : ℝ) ^ 2) = ((64 : ℚ) : ℝ) by norm_num]
  exact Rat.cast_lt

/-- C3: `detectThrowingMotion` returns `none` on fewer than 3 samples, and
`none` when no consecutive pair has a time delta strictly between 0 and
0.1 s; with at least 3 samples and at least one valid pair it returns the
average velocity over the valid pairs exactly when that vector's magnitude
exceeds 8, and `none` when the magnitude is at most 8. -/
theorem C3_detect_throwing (h : List HandVelocity) :
    (h.length < 3 → detectThrowingMotion h = none) ∧
    (3 ≤ h.length → pairVelocities h = [] → detectThrowingMotion h = none) ∧
    (3 ≤ h.length → pairVelocities h ≠ [] →
      Real.sqrt ((avgVx h ^ 2 + avgVy h ^ 2 : ℚ) : ℝ) ≤ 8 →
      detectThrowingMotion h = none) ∧
    (3 ≤ h.length → pairVelocities h ≠ [] →
      8 < Real.sqrt ((avgVx h ^ 2 + avgVy h ^ 2 : ℚ) : ℝ) →
      detectThrowingMotion h = some (avgVx h, avgVy h)) := by
  refine ⟨?_, ?_, ?_, ?_⟩
  · intro hlt
    rw [detectThrowingMotion, if_pos hlt]
  · intro hge hpv
    rw [detectThrowingMotion, if_neg (by omega), if_pos (by rw [hpv]; rfl)]
  · intro hge hpv hle
    have hlen : (pairVelocities h).length ≠ 0 := by
      simpa [List.length_eq_zero] using hpv
    have h64 : ¬ (THROW_VELOCITY_THRESHOLD ^ 2 < avgVx h ^ 2 + avgVy h ^ 2) := by
      rw [THROW_VELOCITY_THRESHOLD, show ((8 : ℚ) ^ 2) = 64 by norm_num]
      intro hcon
      exact absurd ((eight_lt_sqrt_iff _).mpr hcon) (not_lt.mpr hle)
    rw [detectThrowingMotion, if_neg (by omega), if_neg hlen, if_neg h64]
  · intro hge hpv hgt
    have hlen : (pairVelocities h).length ≠ 0 := by
      simpa [List.length_eq_zero] using hpv
    have h64 : THROW_VELOCITY_THRESHOLD ^ 2 < avgVx h ^ 2 + avgVy h ^ 2 := by
      rw [THROW_VELOCITY_THRESHOLD, show ((8 : ℚ) ^ 2) = 64 by norm_num]
      exact (eight_lt_sqrt_iff _).mp hgt
    rw [detectThrowingMotion, if_neg (by omega), if_neg hlen, if_pos h64]

/-- A concrete 3-sample history moving 1 unit in 100 ms (average velocity 10). -/
def histC3 : List HandVelocity := [⟨0, 0, 0⟩, ⟨1/2, 0, 50⟩, ⟨1, 0, 100⟩]

/-- Witness for C3 at `histC3`: the throw is detected with velocity (10, 0). -/
theorem C3_witness :
    detectThrowingMotion histC3 = some (avgVx histC3, avgVy histC3) ∧
    avgVx histC3 = 10 ∧ avgVy histC3 = 0 := by
  have hpv : pairVelocities histC3 = [(10, 0), (10, 0)] := by
    norm_num [pairVelocities, histC3, pairVelocity, List.filterMap_cons]
  have hx : avgVx histC3 = 10 := by
    rw [avgVx, hpv]
    norm_num
  have hy : avgVy histC3 = 0 := by
    rw [avgVy, hpv]
    norm_num
  refine ⟨(C3_detect_throwing histC3).2.2.2 (by norm_num [histC3])
    (by rw [hpv]; simp) ((eight_lt_sqrt_iff _).mpr (by rw [hx, hy]; norm_num)),
    hx, hy⟩

/-! ### C4 -/

/-- The life field after one tick. -/
theorem update_life (b : MagicBall) : (MagicBall.update b).1.life = b.life - 1 := rfl

/-- The survival flag returned by `update` is exactly `life > 0` after the
decrement. -/
theorem update_alive (b : MagicBall) :
    (MagicBall.update b).2 = decide (0 < b.life - 1) := rfl

/-- One step of `updateMagicBalls` on a cons cell. -/
theorem updateMagicBalls_cons (b : MagicBall) (rest : List MagicBall) :
    updateMagicBalls (b :: rest) =
      if 0 < b.life - 1 then (MagicBall.update b).1 :: updateMagicBalls rest
      else updateMagicBalls rest := by
  show (if (MagicBall.update b).2 then (MagicBall.update b).1 :: updateMagicBalls rest
        else updateMagicBalls rest) = _
  rw [update_alive]
  by_cases hb : 0 < b.life - 1
  · rw [if_pos hb, if_pos (by simpa using hb)]
  · rw [if_neg hb, if_neg (by simpa using hb)]

/-- `updateMagicBalls` fixes the empty collection. -/
theorem updateMagicBalls_nil_iter (n : ℕ) : updateMagicBalls^[n] [] = [] :=
  Function.iterate_fixed rfl n

/-- Iterating the engine on a single live ball: while fewer ticks than `life`
have elapsed the ball survives with its life reduced by the tick count, and
from the `life`-th tick on the collection is empty. -/
theorem iterate_single_ball (n : ℕ) :
    ∀ b : MagicBall, 0 < b.life →
      (((n : ℤ) < b.life → ∃ b', updateMagicBalls^[n] [b] = [b'] ∧
          b'.life = b.life - n) ∧
       (b.life ≤ (n : ℤ) → updateMagicBalls^[n] [b] = [])) := by
  induction n with
  | zero =>
    intro b hb
    refine ⟨fun _ => ⟨b, rfl, by simp⟩, fun hle => absurd hb (by omega)⟩
  | succ n ih =>
    intro b hb
    have hstep : updateMagicBalls [b] =
        if 0 < b.life - 1 then [(MagicBall.update b).1] else [] := by
      rw [updateMagicBalls_cons]
      by_cases hc : 0 < b.life - 1
      · rw [if_pos hc, if_pos hc]
        rfl
      · rw [if_neg hc, if_neg hc]
        rfl
    by_cases hc : 0 < b.life - 1
    · obtain ⟨ih1, ih2⟩ := ih (MagicBall.update b).1 (by rw [update_life]; exact hc)
      constructor
      · intro hlt
        rw [Function.iterate_succ_apply, hstep, if_pos hc]
        obtain ⟨b', e, el⟩ := ih1 (by rw [update_life]; push_cast at hlt ⊢; omega)
        refine ⟨b', e, ?_⟩
        rw [el, update_life]
        push_cast
        ring
      · intro hle
        rw [Function.iterate_succ_apply, hstep, if_pos hc]
        exact ih2 (by rw [update_life]; push_cast at hle ⊢; omega)
    · constructor
      · intro hlt
        exfalso
        push_cast at hlt
        omega
      · intro _
        rw [Function.iterate_succ_apply, hstep, if_neg hc, updateMagicBalls_nil_iter]

/-- C4: each tick decrements `life` by exactly 1; `updateMagicBalls` keeps
exactly the updated balls whose new life is still positive (a ball is removed
exactly when its life reaches 0), in order; and a freshly constructed ball
(`life = maxLife = 120`) alone in the collection survives every tick `n < 120`
with `life = 120 - n` and is gone after the 120th tick. -/
theorem C4_projectile_lifecycle :
    (∀ b : MagicBall, (MagicBall.update b).1.life = b.life - 1) ∧
    (∀ balls : List MagicBall, updateMagicBalls balls =
      (balls.map fun b => (MagicBall.update b).1).filter fun b =>
        decide (0 < b.life)) ∧
    (∀ x y vx vy : ℚ, ∀ c : Color,
      updateMagicBalls^[120] [mkMagicBall x y vx vy c] = []) ∧
    (∀ x y vx vy : ℚ, ∀ c : Color, ∀ n : ℕ, n < 120 →
      ∃ b', updateMagicBalls^[n] [mkMagicBall x y vx vy c] = [b'] ∧
        b'.life = 120 - (n : ℤ)) := by
  refine ⟨update_life, ?_, ?_, ?_⟩
  · intro balls
    induction balls with
    | nil => rfl
    | cons b rest ih =>
      rw [updateMagicBalls_cons, List.map_cons, List.filter_cons, ih]
      by_cases hc : 0 < b.life - 1
      · rw [if_pos hc, if_pos (by rw [update_life]; exact decide_eq_true hc)]
      · rw [if_neg hc,
          if_neg (by simp only [update_life, decide_eq_true_eq]; exact hc)]
  · intro x y vx vy c
    have hlife : (mkMagicBall x y vx vy c).life = 120 := rfl
    exact (iterate_single_ball 120 (mkMagicBall x y vx vy c)
      (by rw [hlife]; norm_num)).2 (by rw [hlife]; norm_num)
  · intro x y vx vy c n hn
    have hlife : (mkMagicBall x y vx vy c).life = 120 := rfl
    obtain ⟨b', e, el⟩ := (iterate_single_ball n (mkMagicBall x y vx vy c)
      (by rw [hlife]; norm_num)).1 (by rw [hlife]; exact_mod_cast hn)
    exact ⟨b', e, by rw [el, hlife]⟩

/-! ### C5 -/

/-- C5: the per-tick update integrates position with the fixed factor
`0.016` of one tick, but the `// gravity` line `vy += 0.5` makes the
vertical velocity INCREASE by the constant 1/2 on every tick.  In the
bottom-up simulation space established by the same file's conversion
`y = 1 − pageY·dpr/height` (larger `y` is higher), this is an upward, not a
downward, acceleration: the vertical velocity never decreases. -/
theorem C5_gravity_points_up (b : MagicBall) :
    (MagicBall.update b).1.vy = b.vy + 1/2 ∧
    (MagicBall.update b).1.y = b.y + b.vy * (16/1000) ∧
    b.vy ≤ (MagicBall.update b).1.vy := by
  refine ⟨rfl, rfl, ?_⟩
  have h : (MagicBall.update b).1.vy = b.vy + 1/2 := rfl
  rw [h]
  linarith

/-! ### C6 -/

/-- C6 counterexample: at the interior page point (10, 10) on a 100×100
canvas with pixel ratio 1, `getPageCoords` applied to the simulation-space
normalization returns (10, 90), not the original point: the y coordinate
does not round-trip. -/
theorem C6_counterexample :
    getPageCoords ⟨100, 100⟩ 1 (some (toNormalized ⟨100, 100⟩ 1 ⟨10, 10⟩)) ≠
      some ⟨10, 10⟩ := by
  simp only [toNormalized, getPageCoords, ne_eq, Option.some.injEq,
    PageCoords.mk.injEq, not_and]
  intro _
  norm_num

/-- C6 amended: `getPageCoords` composed with the simulation-space
normalization returns `pageX` exactly in the x coordinate but
`height/dpr − pageY` in the y coordinate (it omits the Y flip), so only the
x coordinate round-trips; `getPageCoords` is instead the exact inverse of
the unflipped normalization `x = pageX·dpr/width`, `y = pageY·dpr/height`. -/
theorem C6_roundtrip_amended (p : PageCoords) (canvas : CanvasSize) (dpr : ℚ)
    (hw : canvas.width ≠ 0) (hh : canvas.height ≠ 0) (hr : dpr ≠ 0) :
    getPageCoords canvas dpr (some (toNormalized canvas dpr p)) =
      some ⟨p.pageX, canvas.height / dpr - p.pageY⟩ ∧
    getPageCoords canvas dpr
        (some ⟨p.pageX * dpr / canvas.width, p.pageY * dpr / canvas.height⟩) =
      some p := by
  obtain ⟨px, py⟩ := p
  constructor
  · simp only [toNormalized, getPageCoords, Option.some.injEq, PageCoords.mk.injEq]
    constructor
    · field_simp
    · field_simp
      ring
  · simp only [getPageCoords, Option.some.injEq, PageCoords.mk.injEq]
    constructor
    · field_simp
    · field_simp

/-- Witness for C6 at the concrete interior point (10, 10), 100×100 canvas,
pixel ratio 1. -/
theorem C6_witness :
    getPageCoords ⟨100, 100⟩ 1 (some (toNormalized ⟨100, 100⟩ 1 ⟨10, 10⟩)) =
      some ⟨10, 90⟩ := by
  have h := (C6_roundtrip_amended ⟨10, 10⟩ ⟨100, 100⟩ 1 (by norm_num)
    (by norm_num) (by norm_num)).1
  rw [h]
  norm_num

/-! ### C7 -/

/-- `createFluidEffect` written with the named ring points, color and splat. -/
theorem createFluidEffect_eq (b : MagicBall) :
    b.createFluidEffect = (List.range 3).filterMap fun i =>
      if 0 ≤ trailPointX b i ∧ trailPointX b i ≤ 1 ∧
         0 ≤ trailPointY b i ∧ trailPointY b i ≤ 1
      then some (trailSplat b i) else none := rfl

/-- The first ring point sits at angle 0: offset (0.01, 0). -/
theorem trailPointX_zero (b : MagicBall) : trailPointX b 0 = (b.x : ℝ) + 1/100 := by
  simp [trailPointX]

/-- The first ring point sits at angle 0: no vertical offset. -/
theorem trailPointY_zero (b : MagicBall) : trailPointY b 0 = (b.y : ℝ) := by
  simp [trailPointY]

/-- The x coordinate of the first ring point of the counterexample ball. -/
theorem trailPointX_cex :
    trailPointX (mkMagicBall (1/2) (1/2) 0 0 ⟨1, 1, 1⟩) 0 = 51/100 := by
  rw [trailPointX_zero]
  show ((1/2 : ℚ) : ℝ) + 1/100 = 51/100
  push_cast
  norm_num

/-- The y coordinate of the first ring point of the counterexample ball. -/
theorem trailPointY_cex :
    trailPointY (mkMagicBall (1/2) (1/2) 0 0 ⟨1, 1, 1⟩) 0 = 1/2 := by
  rw [trailPointY_zero]
  show ((1/2 : ℚ) : ℝ) = 1/2
  push_cast
  ring

/-- C7 counterexample: for a freshly thrown ball at (1/2, 1/2) with base
color (1,1,1) and full life, an emitted trail impulse has red component
0.8, not `base · life/maxLife = 1`: the emitted color carries the extra
constant factor 0.8 that the claim omits. -/
theorem C7_counterexample :
    ∃ s ∈ (mkMagicBall (1/2) (1/2) 0 0 ⟨1, 1, 1⟩).createFluidEffect,
      s.color.r ≠ ((mkMagicBall (1/2) (1/2) 0 0 ⟨1, 1, 1⟩).color.r : ℝ) *
        (((mkMagicBall (1/2) (1/2) 0 0 ⟨1, 1, 1⟩).life : ℝ) /
          ((mkMagicBall (1/2) (1/2) 0 0 ⟨1, 1, 1⟩).maxLife : ℝ)) := by
  refine ⟨trailSplat (mkMagicBall (1/2) (1/2) 0 0 ⟨1, 1, 1⟩) 0, ?_, ?_⟩
  · rw [createFluidEffect_eq]
    refine List.mem_filterMap.mpr ⟨0, List.mem_range.mpr (by norm_num), ?_⟩
    rw [if_pos]
    rw [trailPointX_cex, trailPointY_cex]
    refine ⟨by norm_num, by norm_num, by norm_num, by norm_num⟩
  · show ((1 * ((120 : ℤ) / (120 : ℤ) : ℚ) * (8/10) : ℚ) : ℝ) ≠
      ((1 : ℚ) : ℝ) * (((120 : ℤ) : ℝ) / ((120 : ℤ) : ℝ))
    push_cast
    norm_num

/-- C7 amended: every tick a surviving projectile attempts exactly three
trail impulses, at the three ring points 120° apart around its position;
each emitted impulse is `trailSplat` — force `(vx·20, vy·20)` proportional
to the current velocity and color equal to the base color scaled by
`0.8 · life/maxLife` (linear fade with the extra constant factor 0.8) — and
an impulse is emitted iff its own point lies in `[0,1]×[0,1]`, out-of-range
points being skipped without affecting the others. -/
theorem C7_trail_amended (b : MagicBall) :
    b.createFluidEffect.length ≤ 3 ∧
    (∀ s ∈ b.createFluidEffect, ∃ i, i < 3 ∧ s = trailSplat b i ∧
      0 ≤ trailPointX b i ∧ trailPointX b i ≤ 1 ∧
      0 ≤ trailPointY b i ∧ trailPointY b i ≤ 1) ∧
    (∀ i : ℕ, i < 3 → 0 ≤ trailPointX b i → trailPointX b i ≤ 1 →
      0 ≤ trailPointY b i → trailPointY b i ≤ 1 →
      trailSplat b i ∈ b.createFluidEffect) := by
  rw [createFluidEffect_eq]
  refine ⟨?_, ?_, ?_⟩
  · exact le_trans (List.length_filterMap_le _ _) (by simp)
  · intro s hs
    obtain ⟨i, hir, hi⟩ := List.mem_filterMap.mp hs
    by_cases hc : 0 ≤ trailPointX b i ∧ trailPointX b i ≤ 1 ∧
        0 ≤ trailPointY b i ∧ trailPointY b i ≤ 1
    · rw [if_pos hc] at hi
      obtain ⟨hc1, hc2, hc3, hc4⟩ := hc
      exact ⟨i, List.mem_range.mp hir, (Option.some.inj hi).symm, hc1, hc2, hc3, hc4⟩
    · rw [if_neg hc] at hi
      exact absurd hi (by simp)
  · intro i hi h1 h2 h3 h4
    exact List.mem_filterMap.mpr
      ⟨i, List.mem_range.mpr hi, by rw [if_pos ⟨h1, h2, h3, h4⟩]⟩

/-- Witness for C7: the first trail impulse of the counterexample ball is
emitted. -/
theorem C7_witness :
    trailSplat (mkMagicBall (1/2) (1/2) 0 0 ⟨1, 1, 1⟩) 0 ∈
      (mkMagicBall (1/2) (1/2) 0 0 ⟨1, 1, 1⟩).createFluidEffect := by
  refine (C7_trail_amended (mkMagicBall (1/2) (1/2) 0 0 ⟨1, 1, 1⟩)).2.2 0
    (by norm_num) ?_ ?_ ?_ ?_ <;>
    simp only [trailPointX_cex, trailPointY_cex] <;> norm_num

/-! ### C8 -/

/-- C8 counterexample: with both hands classified Pointing_Up and both
anchor coordinates available — left (0, 5), right (3, 4), landmarks present
— the dual-ray generator is NOT invoked (the left anchor's `pageX = 0` is
falsy in the source's truthiness test) while the single-hand finger-ray
generator IS invoked for the right hand. -/
theorem C8_counterexample :
    (dispatchPointing (some ⟨0, 5⟩) (some ⟨3, 4⟩) true true).dual = false ∧
    (dispatchPointing (some ⟨0, 5⟩) (some ⟨3, 4⟩) true true).rightSingle = true := by
  norm_num [dispatchPointing, coordsTruthy]

/-- C8 amended: when both hands' pointing anchor coordinates are truthy
(present with both components nonzero), only the combined dual-ray-to-center
generator is invoked and neither hand gets the single-hand finger-ray
generator; when exactly one hand's pointing coordinates are truthy, that
hand (and only that hand) gets the single-hand finger-ray generator,
provided its landmarks are present. -/
theorem C8_pointing_dispatch (l r : Option PageCoords) (llm rlm : Bool) :
    (coordsTruthy l = true → coordsTruthy r = true →
      dispatchPointing l r llm rlm = ⟨true, false, false⟩) ∧
    (coordsTruthy l = true → coordsTruthy r = false →
      dispatchPointing l r llm rlm = ⟨false, llm, false⟩) ∧
    (coordsTruthy l = false → coordsTruthy r = true →
      dispatchPointing l r llm rlm = ⟨false, false, rlm⟩) ∧
    (coordsTruthy l = false → coordsTruthy r = false →
      dispatchPointing l r llm rlm = ⟨false, false, false⟩) := by
  refine ⟨?_, ?_, ?_, ?_⟩ <;> intro h1 h2 <;> simp [dispatchPointing, h1, h2]

/-- Witness for C8: both anchors truthy at (1, 2) and (3, 4) — the dual
generator alone runs. -/
theorem C8_witness :
    dispatchPointing (some ⟨1, 2⟩) (some ⟨3, 4⟩) true true =
      ⟨true, false, false⟩ :=
  (C8_pointing_dispatch (some ⟨1, 2⟩) (some ⟨3, 4⟩) true true).1
    (by norm_num [coordsTruthy]) (by norm_num [coordsTruthy])

/-! ### C9 -/

/-- C9: when the index fingertip coincides with the index-finger base (a
direction vector of zero length), `createFingerRay` emits no impulses: the
`length === 0` guard returns before the normalization divisions and before
the emission loop. -/
theorem C9_zero_direction_ray (canvas : CanvasSize) (dpr : ℚ) (time : ℝ)
    (rand : ℕ → ℝ × ℝ × ℝ) (landmarks : List Coords2D) (p : Coords2D)
    (htip : landmarks[INDEX_FINGER_TIP]? = some p)
    (hmcp : landmarks[INDEX_FINGER_MCP]? = some p) :
    createFingerRay canvas dpr time rand landmarks = [] := by
  unfold createFingerRay
  rw [htip, hmcp]
  simp [getPageCoords]

/-- Witness for C9: nine identical landmarks (fingertip = finger base) on a
100×100 canvas emit no impulses. -/
theorem C9_witness :
    createFingerRay ⟨100, 100⟩ 1 0 (fun _ => (0, 0, 0))
      [⟨1/2, 1/2⟩, ⟨1/2, 1/2⟩, ⟨1/2, 1/2⟩, ⟨1/2, 1/2⟩, ⟨1/2, 1/2⟩,
       ⟨1/2, 1/2⟩, ⟨1/2, 1/2⟩, ⟨1/2, 1/2⟩, ⟨1/2, 1/2⟩] = [] :=
  C9_zero_direction_ray ⟨100, 100⟩ 1 0 (fun _ => (0, 0, 0)) _ ⟨1/2, 1/2⟩ rfl rfl

/-! ### C10 -/

/-- The type of the synthesized event, as a single conditional. -/
theorem getEvent_type (prev : Option (List Touch)) (touches : List Touch) :
    (getEvent prev touches).type =
      if (prev.getD []).length ≠ 0 ∧ touches.length ≤ (prev.getD []).length
      then TouchType.touchmove else TouchType.touchstart := by
  unfold getEvent createTouchEvent
  by_cases h : (prev.getD []).length ≠ 0 ∧ touches.length ≤ (prev.getD []).length
  · rw [if_pos h, if_pos h]
  · rw [if_neg h, if_neg h]

/-- C10: the synthesized touch event is always `touchstart` or `touchmove`
— `touchmove` exactly when the previous frame's touch list was non-empty
and at least as long as the current one — so the dispatcher's `touchend`
branch never fires: `sendTouchEnd` is never invoked. -/
theorem C10_no_touchend (glow : Bool) (prev : Option (List Touch))
    (touches : List Touch) :
    touchDispatch glow prev touches ≠ some TouchSend.sendEnd ∧
    ((getEvent prev touches).type = TouchType.touchmove ∨
      (getEvent prev touches).type = TouchType.touchstart) ∧
    ((getEvent prev touches).type = TouchType.touchmove ↔
      (prev.getD []).length ≠ 0 ∧ touches.length ≤ (prev.getD []).length) := by
  have hne : (getEvent prev touches).type ≠ TouchType.touchend := by
    rw [getEvent_type]
    split_ifs <;> simp
  refine ⟨?_, ?_, ?_⟩
  · unfold touchDispatch
    split_ifs with hg hl
    · simp
    · cases ht : (getEvent prev touches).type with
      | touchstart => simp
      | touchmove => simp
      | touchend => exact absurd ht hne
    · simp
  · rw [getEvent_type]
    split_ifs <;> simp
  · rw [getEvent_type]
    by_cases h : (prev.getD []).length ≠ 0 ∧ touches.length ≤ (prev.getD []).length
    · rw [if_pos h]
      simp [h]
    · rw [if_neg h]
      exact ⟨fun he => absurd he (by simp), fun hc => absurd hc h⟩

end MagicHands
